import Mathlib

/-!
Verification development for the data-quality analyzer core
(`data_quality_engine.py` and `scoring.py`).

Modelling conventions:
- A pandas DataFrame is a `Table`: a list of column names and a list of rows,
  each row a list of cells; a cell is `Option Val` (`none` models NaN/null).
- Machine floats are modelled as exact rationals (`ℚ`); Python's decimal
  literals such as `0.3`, `0.82`, `0.65` become the exact rationals
  `3/10`, `82/100`, `65/100`, and Python's `round(x, k)` becomes exact
  rational rounding to `k` decimals with ties rounded half-up (the sources
  never hit an exact tie in the properties proved here).
- `difflib.SequenceMatcher.ratio` is embedded by its documented algorithm
  (recursive longest-matching-block decomposition, earliest-in-a then
  earliest-in-b tie break); the autojunk heuristic, which only activates on
  strings of length ≥ 200, is omitted.
- Python `dict`s keep insertion order, so `{name → DataFrame}` is modelled
  as an association list; a lookup of an absent dataset name defaults to the
  empty table (the Python code never performs such a lookup).
- Presentation-only values (the `"check"` label wrappers, the `details`
  dictionary of `calculate_scores`, report printing) are omitted.
-/

set_option maxRecDepth 1000000

namespace DataQuality

/-- A cell value: pandas scalars are either numeric or textual here. -/
inductive Val where
  | num (q : ℚ)
  | str (s : String)
deriving DecidableEq, Repr

/-- A loaded DataFrame: normalized column names plus rows of optional cells. -/
structure Table where
  cols : List String
  rows : List (List (Option Val))
deriving DecidableEq, Repr

/-- First-occurrence deduplication, as Python's `set`/`Series.unique` produce
(order of first appearance; implemented with an accumulator of seen values). -/
def dedupFgo [DecidableEq α] : List α → List α → List α
  | [], _ => []
  | x :: xs, seen => if x ∈ seen then dedupFgo xs seen else x :: dedupFgo xs (x :: seen)

/-- Distinct elements of a list in order of first appearance. -/
def dedupF [DecidableEq α] (l : List α) : List α := dedupFgo l []

/-- Insert into a sorted list, before the first element that is not
strictly smaller; together with `insSortBy` this is a stable sort, matching
Python's stable `sorted`/`list.sort`. -/
def insertLe (le : α → α → Bool) (x : α) : List α → List α
  | [] => [x]
  | y :: ys => if le x y then x :: y :: ys else y :: insertLe le x ys

/-- Stable insertion sort with respect to a (total) boolean preorder. -/
def insSortBy (le : α → α → Bool) : List α → List α
  | [] => []
  | x :: xs => insertLe le x (insSortBy le xs)

/-- All unordered pairs of a list, in `itertools.combinations` order. -/
def pairsL : List α → List (α × α)
  | [] => []
  | x :: xs => xs.map (fun y => (x, y)) ++ pairsL xs

/-- Lexicographic order on character lists by code point, as Python compares
strings. -/
def lexLe : List Char → List Char → Bool
  | [], _ => true
  | _ :: _, [] => false
  | a :: as, b :: bs => if a = b then lexLe as bs else decide (a < b)

/-- Python string `≤` (code-point lexicographic). -/
def strLe (a b : String) : Bool := lexLe a.data b.data

/-- Case-insensitive view of a string, as Python's `str.lower()` (ASCII). -/
def lowerStr (s : String) : List Char := s.data.map Char.toLower

/-- Whether `needle` occurs as a contiguous substring of `hay` (models an
unanchored `re.search` of a plain alternative). -/
def containsSub (hay needle : List Char) : Bool :=
  hay.tails.any (fun t => needle.isPrefixOf t)

/-- Python `round(x, 1)` on an exact rational (half-up at exact ties). -/
def round1 (q : ℚ) : ℚ := (round (q * 10) : ℤ) / 10

/-- Python `round(x, 2)` on an exact rational (half-up at exact ties). -/
def round2 (q : ℚ) : ℚ := (round (q * 100) : ℤ) / 100

/-- The `_cap` helper of `scoring.py`: clamp `v` into `[lo, hi]`. -/
def _cap (v lo hi : ℚ) : ℚ := max lo (min hi v)

/-- Python `max` of a nonempty list (0 on the empty list, never used there). -/
def listMax : List ℚ → ℚ
  | [] => 0
  | x :: xs => xs.foldl max x

/-- Python `sum` of a list of rationals. -/
def listSum (l : List ℚ) : ℚ := l.foldl (· + ·) 0

/-!  difflib.SequenceMatcher  -/

/-- Length of the common run of `a` and `b` starting at positions `i`, `j`,
staying below the bounds `ahi`, `bhi` (fuel-based recursion). -/
def commonRun (a b : List Char) (ahi bhi : ℕ) : ℕ → ℕ → ℕ → ℕ
  | 0, _, _ => 0
  | fuel + 1, i, j =>
    if i < ahi && j < bhi && (a.getD i ' ' = b.getD j ' ') then
      commonRun a b ahi bhi fuel (i + 1) (j + 1) + 1
    else 0

/-- `SequenceMatcher.find_longest_match` on `a[alo:ahi]` / `b[blo:bhi]`
without junk: the longest common block, ties broken by the earliest start in
`a`, then in `b`; `(alo, blo, 0)` if there is none. -/
def findLongest (a b : List Char) (alo ahi blo bhi : ℕ) : ℕ × ℕ × ℕ :=
  let cands := (List.range' alo (ahi - alo)).flatMap (fun i =>
    (List.range' blo (bhi - blo)).map (fun j =>
      (i, j, commonRun a b ahi bhi (ahi - i) i j)))
  cands.foldl (fun best c => if best.2.2 < c.2.2 then c else best) (alo, blo, 0)

/-- Total number of matched characters over the recursive matching-block
decomposition of `get_matching_blocks` (fuel-based recursion; the fuel is
always taken large enough, see `simRatio`). -/
def matchTotal (a b : List Char) : ℕ → ℕ → ℕ → ℕ → ℕ → ℕ
  | 0, _, _, _, _ => 0
  | fuel + 1, alo, ahi, blo, bhi =>
    let m := findLongest a b alo ahi blo bhi
    if m.2.2 = 0 then 0
    else
      matchTotal a b fuel alo m.1 blo m.2.1 + m.2.2 +
      matchTotal a b fuel (m.1 + m.2.2) ahi (m.2.1 + m.2.2) bhi

/-- `SequenceMatcher(None, a, b).ratio()`: `2·M / (|a| + |b|)` where `M` is
the total size of the matching blocks (`1` when both strings are empty). -/
def simRatio (a b : List Char) : ℚ :=
  let t := a.length + b.length
  if t = 0 then 1
  else 2 * (matchTotal a b (t + 1) 0 a.length 0 b.length : ℚ) / t

/-!  Table access helpers  -/

/-- Stringification of one scalar, as `astype(str)` renders it (`str` values
verbatim; integral numbers without, other rationals with their canonical
textual form). Concrete inputs in this development only stringify `str`
cells. -/
def Val.toStr : Val → String
  | .str s => s
  | .num q => if q.den = 1 then toString q.num else toString q

/-- How `astype(str)` renders a whole cell: nulls become the string "nan". -/
def strCell : Option Val → String
  | none => "nan"
  | some v => v.toStr

/-- Look a dataset up by name (`dfs[name]`); absent names — which the Python
code never looks up — default to the empty table. -/
def getTable (dfs : List (String × Table)) (name : String) : Table :=
  (dfs.lookup name).getD ⟨[], []⟩

/-- The cells of column `c` of `t`, in row order (empty if the column is
absent). -/
def colCells (t : Table) (c : String) : List (Option Val) :=
  match t.cols.findIdx? (fun x => x = c) with
  | none => []
  | some i => t.rows.map (fun r => r.getD i none)

/-- `len(df)`. -/
def numRows (t : Table) : ℕ := t.rows.length

/-- `df[c].dropna().astype(str)`: the non-null cells of `c`, stringified, in
row order. -/
def colStrValsNN (t : Table) (c : String) : List String :=
  (colCells t c).filterMap (fun o => o.map Val.toStr)

/-- `set(df[c].dropna().astype(str))`: the distinct non-null stringified
values of column `c` (first-appearance order; the sources only consume this
through length, membership and sorting, so the order is never observable). -/
def distinctVals (t : Table) (c : String) : List String :=
  dedupF (colStrValsNN t c)

/-- `df[c].nunique()`: the number of distinct non-null raw values. -/
def nuniqueRaw (t : Table) (c : String) : ℕ :=
  (dedupF ((colCells t c).filterMap id)).length

/-- `df[df[c].astype(str).isin(examples)].head(3)`: the first three rows whose
stringified `c`-cell is among `examples`. -/
def sampleRows (t : Table) (c : String) (examples : List String) : List (List (Option Val)) :=
  match t.cols.findIdx? (fun x => x = c) with
  | none => []
  | some i => (t.rows.filter (fun r => strCell (r.getD i none) ∈ examples)).take 3

/-!  Join key inference (`detect_join_keys`)  -/

/-- The `ID_PATTERNS` regex `(id|_id|key|code|num|number|ref)$` (IGNORECASE):
does the column name end with one of the identifier suffixes? -/
def looksLikeId (c : String) : Bool :=
  let l : List Char := lowerStr c
  ["id", "_id", "key", "code", "num", "number", "ref"].any
    (fun p => p.data.isSuffixOf l)

/-- A candidate join between two datasets. `colA`/`colB` are `some` exactly
for fuzzy cross-name candidates; exact candidates use `key` as the column
name on both sides, mirroring `join.get("col_a", join["key"])`. -/
structure Join where
  key : String
  file_a : String
  file_b : String
  colA : Option String
  colB : Option String
deriving DecidableEq, Repr

/-- The source-side column name of a join (`join.get("col_a", join["key"])`). -/
def Join.ca (j : Join) : String := j.colA.getD j.key

/-- The target-side column name of a join (`join.get("col_b", join["key"])`). -/
def Join.cb (j : Join) : String := j.colB.getD j.key

/-- `detect_join_keys`: columns shared by name between ≥ 2 datasets that look
like identifiers or have distinct-value ratio above 0.3 give one exact
candidate per dataset pair; additionally every differently-named column pair
across a dataset pair with similarity ratio above 0.82 and at least one
identifier-looking side gives a fuzzy candidate. -/
def detect_join_keys (dfs : List (String × Table)) : List Join :=
  let colKeys := dedupF (dfs.flatMap (fun p => p.2.cols))
  let exact := colKeys.flatMap (fun col =>
    let files := dfs.flatMap (fun p =>
      p.2.cols.filterMap (fun c => if c = col then some p.1 else none))
    if files.length < 2 then []
    else
      let highCard := files.any (fun f =>
        decide ((nuniqueRaw (getTable dfs f) col : ℚ) > 3/10 * (numRows (getTable dfs f) : ℚ)))
      if looksLikeId col || highCard then
        (pairsL files).map (fun p => ⟨col, p.1, p.2, none, none⟩)
      else [])
  let fuzzy := (pairsL dfs).flatMap (fun p =>
    p.1.2.cols.flatMap (fun ca =>
      p.2.2.cols.filterMap (fun cb =>
        if ca = cb then none
        else if (82/100 : ℚ) < simRatio ca.data cb.data && (looksLikeId ca || looksLikeId cb) then
          some ⟨ca ++ " ↔ " ++ cb, p.1.1, p.2.1, some ca, some cb⟩
        else none)))
  exact ++ fuzzy

/-!  Check 1: orphan records (`check_orphan_records`)  -/

/-- A referential-integrity finding. -/
structure OrphanFinding where
  direction : String
  key : String
  orphan_count : ℕ
  pct_of_source : ℚ
  example_values : List String
  sample_rows : List (List (Option Val))
deriving DecidableEq, Repr

/-- Emit the finding for one direction of one join: skipped when the orphan
set is empty, otherwise the count, the percentage of the source dataset's
row count rounded to one decimal, up to five sorted example values and up to
three sample rows. -/
def mkOrphan (j : Join) (dir : String) (orphans : List String)
    (src : Table) (srcCol : String) : List OrphanFinding :=
  if orphans = [] then []
  else
    let count := orphans.length
    let pct := round1 ((count : ℚ) / (numRows src : ℚ) * 100)
    let examples := (insSortBy strLe orphans).take 5
    [⟨dir, j.key, count, pct, examples, sampleRows src srcCol examples⟩]

/-- Both directional findings of a single join candidate (none when a join
column is missing from its dataset). -/
def orphanFrom (dfs : List (String × Table)) (j : Join) : List OrphanFinding :=
  let ta := getTable dfs j.file_a
  let tb := getTable dfs j.file_b
  if j.ca ∈ ta.cols ∧ j.cb ∈ tb.cols then
    let valsA := distinctVals ta j.ca
    let valsB := distinctVals tb j.cb
    let orphansA := valsA.filter (fun v => v ∉ valsB)
    let orphansB := valsB.filter (fun v => v ∉ valsA)
    mkOrphan j (j.file_a ++ " → " ++ j.file_b) orphansA ta j.ca ++
    mkOrphan j (j.file_b ++ " → " ++ j.file_a) orphansB tb j.cb
  else []

/-- `check_orphan_records`: all directional findings over all join
candidates, sorted by percentage, highest first (stable). -/
def check_orphan_records (dfs : List (String × Table)) (joins : List Join) :
    List OrphanFinding :=
  insSortBy (fun x y => decide (y.pct_of_source ≤ x.pct_of_source))
    (joins.flatMap (orphanFrom dfs))

/-!  Check 2: entity duplicates (`check_entity_duplicates`)  -/

/-- The `NAME_PATTERNS` regex
`(name|customer|client|company|vendor|supplier|product)` (IGNORECASE,
unanchored substring search). -/
def nameLike (c : String) : Bool :=
  let l : List Char := lowerStr c
  ["name", "customer", "client", "company", "vendor", "supplier", "product"].any
    (fun p => containsSub l p.data)

/-- Ordering used by pandas `groupby` on raw keys (numeric before textual;
the mixed case would raise in pandas and never occurs in these sources). -/
def valLe (a b : Val) : Bool :=
  match a, b with
  | .num x, .num y => decide (x ≤ y)
  | .str x, .str y => strLe x y
  | .num _, .str _ => true
  | .str _, .num _ => false

/-- One example group of the exact-duplicate check. -/
structure DupGroup where
  name : Val
  appears_with_ids : List (Option Val)
  id_count : ℕ
deriving DecidableEq, Repr

/-- One example pair of the fuzzy-duplicate check. -/
structure FuzzyPair where
  value_a : String
  value_b : String
  similarity : ℚ
deriving DecidableEq, Repr

/-- An entity-duplicate finding: either exact groups or fuzzy pairs. -/
inductive DupExamples where
  | groups (l : List DupGroup)
  | fuzzy (l : List FuzzyPair)
deriving DecidableEq, Repr

/-- A duplicate-entities finding for one dataset. -/
structure DuplicateFinding where
  file : String
  dtype : String
  duplicate_count : ℕ
  examples : DupExamples
deriving DecidableEq, Repr

/-- `df.groupby(nameCol)[idCol].nunique()` restricted to one group key:
the number of distinct non-null identifier values among the rows whose
name cell equals `v`. -/
def groupNuniqueIds (t : Table) (nameCol idCol : String) (v : Val) : ℕ :=
  let pairs := (colCells t nameCol).zip (colCells t idCol)
  (dedupF ((pairs.filter (fun p => p.1 = some v)).filterMap (fun p => p.2))).length

/-- `df[df[nameCol] == v][idCol].unique().tolist()`: the distinct raw
identifier cells (nulls included, as pandas `unique` keeps NaN) of the rows
whose name cell equals `v`, in row order. -/
def groupIds (t : Table) (nameCol idCol : String) (v : Val) : List (Option Val) :=
  let pairs := (colCells t nameCol).zip (colCells t idCol)
  dedupF ((pairs.filter (fun p => p.1 = some v)).map (fun p => p.2))

/-- The `names_list` of the fuzzy-duplicate check: distinct non-null
stringified name values, capped at 5000, sorted. -/
def fuzzyNamesList (t : Table) (nameCol : String) : List String :=
  let u := dedupF (colStrValsNN t nameCol)
  let u := if 5000 < u.length then u.take 5000 else u
  insSortBy strLe u

/-- The fuzzy sliding-window scan: for each index `i`, compare with indices
`i+1 ≤ j < min (i+30) n`; keep pairs whose length difference is at most 8
and whose lowercased similarity ratio lies strictly between 0.85 and 1. -/
def fuzzyWindowPairs (names : List String) : List FuzzyPair :=
  (List.range names.length).flatMap (fun i =>
    (List.range' (i + 1) (min (i + 30) names.length - (i + 1))).filterMap (fun j =>
      let a := names.getD i ""
      let b := names.getD j ""
      if 8 < ((a.data.length : ℤ) - (b.data.length : ℤ)).natAbs then none
      else
        let r := simRatio (lowerStr a) (lowerStr b)
        if (85/100 : ℚ) < r ∧ r < 1 then some ⟨a, b, round2 r⟩
        else none))

/-- The findings of `check_entity_duplicates` for one dataset: the exact
same-name-multiple-ids groups (if any), then the fuzzy near-name pairs
(if any); skipped entirely when no identifier-like or no name-like column
exists. -/
def dupFindingsFor (name : String) (t : Table) : List DuplicateFinding :=
  let idCols := t.cols.filter looksLikeId
  let nameCols := t.cols.filter (fun c => nameLike c && !looksLikeId c)
  match idCols, nameCols with
  | [], _ => []
  | _, [] => []
  | idCol :: _, nameCol :: _ =>
    let groupKeys := insSortBy valLe (dedupF ((colCells t nameCol).filterMap id))
    let dupNames := (groupKeys.map (fun v => (v, groupNuniqueIds t nameCol idCol v))).filter
      (fun p => 1 < p.2)
    let dupNames := insSortBy (fun x y => decide (y.2 ≤ x.2)) dupNames
    let exact :=
      if dupNames = [] then []
      else
        let top := dupNames.take 5
        let detail := top.map (fun p =>
          ({ name := p.1, appears_with_ids := (groupIds t nameCol idCol p.1).take 6,
             id_count := p.2 } : DupGroup))
        [⟨name, "Same name, multiple IDs", dupNames.length, .groups detail⟩]
    let fpairs := fuzzyWindowPairs (fuzzyNamesList t nameCol)
    let fuzzy :=
      if fpairs = [] then []
      else [⟨name, "Fuzzy name duplicates (likely same entity)", fpairs.length,
             .fuzzy (fpairs.take 5)⟩]
    exact ++ fuzzy

/-- `check_entity_duplicates` (the unused `joins` parameter is kept to match
the source's signature). -/
def check_entity_duplicates (dfs : List (String × Table)) (_joins : List Join) :
    List DuplicateFinding :=
  dfs.flatMap (fun p => dupFindingsFor p.1 p.2)

/-!  Check 3: process flow gaps (`check_process_gaps`)  -/

/-- The fixed `STAGE_KEYWORDS` vocabulary, in priority order. -/
def STAGE_KEYWORDS : List String :=
  ["order", "lead", "request", "invoice", "claim",
   "payment", "shipment", "delivery", "report", "event"]

/-- `stage_rank`: index of the first stage keyword contained in the
lowercased dataset name; 999 when none matches. -/
def stageRank (fname : String) : ℕ :=
  match STAGE_KEYWORDS.findIdx? (fun kw => containsSub (lowerStr fname) kw.data) with
  | some i => i
  | none => 999

/-- `ordered`: dataset names sorted by decreasing row count (stable). -/
def orderedByRows (dfs : List (String × Table)) : List String :=
  insSortBy (fun a b => decide (numRows (getTable dfs b) ≤ numRows (getTable dfs a)))
    (dfs.map Prod.fst)

/-- `ranked`: dataset names sorted by stage rank (stable). -/
def rankedByStage (dfs : List (String × Table)) : List String :=
  insSortBy (fun a b => decide (stageRank a ≤ stageRank b)) (dfs.map Prod.fst)

/-- `pipeline = ranked if ranked[0] != ranked[-1] else ordered`: note that
the source compares the first and last dataset NAMES, not their stage
ranks. -/
def gapPipelineOrder (dfs : List (String × Table)) : List String :=
  let ranked := rankedByStage dfs
  if ranked.headD "" ≠ ranked.getLastD "" then ranked else orderedByRows dfs

/-- A process-flow-gap finding. -/
structure GapFinding where
  stage_from : String
  stage_to : String
  key : String
  missing_count : ℕ
  pct_of_upstream : ℚ
  example_ids : List String
  sample_rows : List (List (Option Val))
deriving DecidableEq, Repr

/-- The join candidates considered "shared" for an adjacent pair: first
those whose dataset pair is exactly `{fa, fb}`, otherwise any candidate
touching both names. -/
def sharedJoins (joins : List Join) (fa fb : String) : List Join :=
  let exact := joins.filter (fun j =>
    (j.file_a = fa ∧ j.file_b = fb) ∨ (j.file_a = fb ∧ j.file_b = fa))
  if exact.isEmpty then
    joins.filter (fun j =>
      (fa = j.file_a ∨ fa = j.file_b) ∧ (fb = j.file_a ∨ fb = j.file_b))
  else exact

/-- The gap check for one adjacent stage pair: uses the FIRST shared join
candidate only; yields nothing when there is no candidate, when the selected
candidate's columns are absent, or when no upstream value is missing
downstream. -/
def gapForPair (dfs : List (String × Table)) (joins : List Join) (fa fb : String) :
    Option GapFinding :=
  match sharedJoins joins fa fb with
  | [] => none
  | j :: _ =>
    let ta := getTable dfs fa
    let tb := getTable dfs fb
    if j.ca ∈ ta.cols ∧ j.cb ∈ tb.cols then
      let idsUp := distinctVals ta j.ca
      let idsDown := distinctVals tb j.cb
      let missing := idsUp.filter (fun v => v ∉ idsDown)
      if missing = [] then none
      else
        let count := missing.length
        let pct := round1 ((count : ℚ) / (idsUp.length : ℚ) * 100)
        let examples := (insSortBy strLe missing).take 5
        some ⟨fa, fb, j.key, count, pct, examples, sampleRows ta j.ca examples⟩
    else none

/-- `check_process_gaps`: walk consecutive pairs of the pipeline order and
collect their gap findings, sorted by percentage, highest first (stable);
empty when fewer than two datasets were loaded. -/
def check_process_gaps (dfs : List (String × Table)) (joins : List Join) :
    List GapFinding :=
  if dfs.length < 2 then []
  else
    let pipeline := gapPipelineOrder dfs
    let fs := (pipeline.zip pipeline.tail).filterMap (fun p => gapForPair dfs joins p.1 p.2)
    insSortBy (fun x y => decide (y.pct_of_upstream ≤ x.pct_of_upstream)) fs

/-- Whether both columns of a join candidate are present in their datasets
(the guard both checks test before using a candidate). -/
def validJoin (dfs : List (String × Table)) (j : Join) : Bool :=
  decide (j.ca ∈ (getTable dfs j.file_a).cols ∧ j.cb ∈ (getTable dfs j.file_b).cols)

/-!  Scoring (`scoring.py`, `calculate_scores`)  -/

/-- The five dimension scores plus the composite, as `calculate_scores`
stores them (`consistency` is the only one that can be `None`). -/
structure Scores where
  completeness : ℚ
  uniqueness : ℚ
  validity : ℚ
  consistency : Option ℚ
  timeliness : ℚ
  overall : ℚ
deriving DecidableEq, Repr

/-- The result bundle of `calculate_scores` (the presentation-only `details`
dictionary is omitted). -/
structure ScoreResult where
  scores : Scores
  weights : List (String × ℚ)
deriving DecidableEq, Repr

/-- Number of non-null cells of a table (`df.notna().sum().sum()`). -/
def nonNullCells (t : Table) : ℕ :=
  (t.rows.map (fun r => r.countP (fun o => o.isSome))).sum

/-- `df.size`: rows × columns. -/
def tableSize (t : Table) : ℕ := t.rows.length * t.cols.length

/-- Completeness: damped non-null ratio, capped at 92. -/
def completenessScore (dfs : List (String × Table)) : ℚ :=
  let total := (dfs.map (fun p => tableSize p.2)).sum
  let nn := (dfs.map (fun p => nonNullCells p.2)).sum
  let raw : ℚ := if total = 0 then 100 else (nn : ℚ) / (total : ℚ) * 100
  _cap (round1 (raw * (93/100))) 0 92

/-- Uniqueness: distinct-row ratio minus a capped penalty of 4 points per
duplicate entity found by the duplicate check. -/
def uniquenessScore (dfs : List (String × Table)) (dups : List DuplicateFinding) : ℚ :=
  let totalRows := (dfs.map (fun p => numRows p.2)).sum
  let uniqueRows := (dfs.map (fun p => (dedupF p.2.rows).length)).sum
  let base : ℚ := if totalRows = 0 then 100 else (uniqueRows : ℚ) / (totalRows : ℚ) * 100
  let dupCount := (dups.map (fun f => f.duplicate_count)).sum
  let penalty : ℚ := min 30 ((dupCount : ℚ) * 4)
  _cap (round1 (base - penalty)) 0 100

/-- The monetary-name pattern of the validity check
(`amount|price|cost|revenue|salary|fee|total|value`, IGNORECASE). -/
def isMoneyCol (c : String) : Bool :=
  ["amount", "price", "cost", "revenue", "salary", "fee", "total", "value"].any
    (fun p => containsSub (lowerStr c) p.data)

/-- The temporal-name pattern of the validity check
(`date|time|created|updated|timestamp`, IGNORECASE). -/
def isDateColV (c : String) : Bool :=
  ["date", "time", "created", "updated", "timestamp"].any
    (fun p => containsSub (lowerStr c) p.data)

/-- The temporal-name pattern of the timeliness section
(`date|time|created|updated`, IGNORECASE — note: no `timestamp`). -/
def isDateColT (c : String) : Bool :=
  ["date", "time", "created", "updated"].any
    (fun p => containsSub (lowerStr c) p.data)

/-- `pd.api.types.is_numeric_dtype`: modelled as every non-null cell of the
column being numeric. -/
def colIsNumeric (t : Table) (c : String) : Bool :=
  (colCells t c).all (fun o => o.all (fun v => match v with | .num _ => true | .str _ => false))

/-- The numeric values of a column's non-null cells. -/
def colNums (t : Table) (c : String) : List ℚ :=
  (colCells t c).filterMap (fun o => o.bind (fun v =>
    match v with | .num q => some q | .str _ => none))

/-- `Series.quantile(p)` with pandas' default linear interpolation. -/
def quantileQ (l : List ℚ) (p : ℚ) : ℚ :=
  let s := insSortBy (fun a b => decide (a ≤ b)) l
  match s with
  | [] => 0
  | _ :: _ =>
    let h : ℚ := ((s.length - 1 : ℕ) : ℚ) * p
    let i : ℕ := (Int.floor h).toNat
    let lo := s.getD i 0
    let hi := s.getD (i + 1) lo
    lo + (h - (i : ℚ)) * (hi - lo)

/-- The per-column validity heuristic of `calculate_scores` (dates are
parsed through the explicit oracle `parseD`; `now` is the explicit current
timestamp, both measured in days). -/
def columnScore (t : Table) (c : String) (parseD : Val → Option ℤ) (now : ℤ) : ℚ :=
  let cells := colCells t c
  let nonNull := cells.filterMap id
  if nonNull.length = 0 then 0
  else if (dedupF nonNull).length = 1 ∧ 5 < numRows t then 50
  else if colIsNumeric t c then
    if isMoneyCol c then
      let neg := (colNums t c).countP (fun q => decide (q < 0))
      _cap (100 - (neg : ℚ) / (numRows t : ℚ) * 200) 0 100
    else if 10 < nonNull.length then
      let xs := colNums t c
      let q25 := quantileQ xs (1/4)
      let q75 := quantileQ xs (3/4)
      let iqr := q75 - q25
      if 0 < iqr then
        let outliers := xs.countP (fun x =>
          decide (x < q25 - 3 * iqr) || decide (q75 + 3 * iqr < x))
        _cap (100 - (outliers : ℚ) / (nonNull.length : ℚ) * 120) 0 100
      else 85
    else 88
  else if isDateColV c then
    let parsed := cells.map (fun o => o.bind parseD)
    let failRate : ℚ := (parsed.countP (fun o => o.isNone) : ℚ) / (numRows t : ℚ)
    let future := parsed.countP (fun o => o.any (fun d => decide (now < d)))
    _cap (round1 (100 - failRate * 60 - ((future : ℚ) / (numRows t : ℚ)) * 30)) 0 100
  else 90

/-- All per-column validity scores, across every column of every dataset. -/
def colScoresOf (dfs : List (String × Table)) (parseD : Val → Option ℤ) (now : ℤ) :
    List ℚ :=
  dfs.flatMap (fun p => p.2.cols.map (fun c => columnScore p.2 c parseD now))

/-- Validity: the mean per-column heuristic score, 85 when there are no
columns at all. -/
def validityScore (dfs : List (String × Table)) (parseD : Val → Option ℤ) (now : ℤ) : ℚ :=
  let cs := colScoresOf dfs parseD now
  match cs with
  | [] => 85
  | _ :: _ => _cap (round1 (listSum cs / (cs.length : ℚ))) 0 100

/-- The pooled integration-issue percentages: every orphan finding's
`pct_of_source` followed by every gap finding's `pct_of_upstream`. -/
def allIssuesOf (orph : List OrphanFinding) (gaps : List GapFinding) : List ℚ :=
  orph.map (fun f => f.pct_of_source) ++ gaps.map (fun f => f.pct_of_upstream)

/-- Consistency: `None` on single-file runs; 95 when no integration issue
was found; otherwise `100 − worst·0.65 − mean·0.35`, rounded and clamped
into [0, 100]. -/
def consistencyScore (numFiles : ℕ) (orph : List OrphanFinding) (gaps : List GapFinding) :
    Option ℚ :=
  if numFiles < 2 then none
  else
    match allIssuesOf orph gaps with
    | [] => some 95
    | _ :: _ =>
      let worst := listMax (allIssuesOf orph gaps)
      let avg := listSum (allIssuesOf orph gaps) / ((allIssuesOf orph gaps).length : ℚ)
      some (_cap (round1 (100 - worst * (65/100) - avg * (35/100))) 0 100)

/-- All parsed dates of all timeliness-relevant columns, in traversal
order. -/
def allDatesOf (dfs : List (String × Table)) (parseD : Val → Option ℤ) : List ℤ :=
  dfs.flatMap (fun p => p.2.cols.flatMap (fun c =>
    if isDateColT c then (colCells p.2 c).filterMap (fun o => o.bind parseD) else []))

/-- Timeliness: bucketed recency of the newest date minus 2 points per
future-dated value; 40 when no date column parses at all. -/
def timelinessScore (dfs : List (String × Table)) (parseD : Val → Option ℤ) (now : ℤ) : ℚ :=
  let dates := allDatesOf dfs parseD
  match dates with
  | [] => 40
  | d :: ds =>
    let latest := ds.foldl max d
    let daysOld : ℤ := now - latest
    let future := dates.countP (fun x => decide (now < x))
    let t : ℚ :=
      if daysOld < 7 then 95
      else if daysOld < 30 then 82
      else if daysOld < 90 then 65
      else if daysOld < 365 then 45
      else 25
    _cap (round1 (t - (future : ℚ) * 2)) 0 100

/-- The fixed weight tables (consistency dominates multi-file runs and is
zeroed out on single-file runs). -/
def weightsFor (numFiles : ℕ) : List (String × ℚ) :=
  if 2 ≤ numFiles then
    [("completeness", 18/100), ("uniqueness", 18/100), ("validity", 14/100),
     ("consistency", 35/100), ("timeliness", 15/100)]
  else
    [("completeness", 30/100), ("uniqueness", 28/100), ("validity", 27/100),
     ("consistency", 0), ("timeliness", 15/100)]

/-- The weighted average over dimensions with positive weight and a non-null
score, minus the integration penalty, rounded and capped to [0, 92]. -/
def overallScore (numFiles : ℕ) (comp uniq val tim : ℚ) (cons : Option ℚ) : ℚ :=
  let score : String → Option ℚ := fun dim =>
    if dim = "completeness" then some comp
    else if dim = "uniqueness" then some uniq
    else if dim = "validity" then some val
    else if dim = "consistency" then cons
    else if dim = "timeliness" then some tim
    else none
  let step : (ℚ × ℚ) → (String × ℚ) → (ℚ × ℚ) := fun acc dw =>
    if 0 < dw.2 then
      match score dw.1 with
      | some s => (acc.1 + s * dw.2, acc.2 + dw.2)
      | none => acc
    else acc
  let wst := (weightsFor numFiles).foldl step (0, 0)
  let integrationPenalty : ℚ := ((numFiles - 1) * 2 : ℕ)
  let raw : ℚ := if wst.2 ≠ 0 then wst.1 / wst.2 - integrationPenalty else 0
  _cap (round1 raw) 0 92

/-- `calculate_scores`: the five dimensions plus the composite, and the
weight table used. -/
def calculate_scores (dfs : List (String × Table)) (orph : List OrphanFinding)
    (dups : List DuplicateFinding) (gaps : List GapFinding) (numFiles : ℕ)
    (parseD : Val → Option ℤ) (now : ℤ) : ScoreResult :=
  let comp := completenessScore dfs
  let uniq := uniquenessScore dfs dups
  let val := validityScore dfs parseD now
  let cons := consistencyScore numFiles orph gaps
  let tim := timelinessScore dfs parseD now
  { scores := { completeness := comp, uniqueness := uniq, validity := val,
                consistency := cons, timeliness := tim,
                overall := overallScore numFiles comp uniq val tim cons },
    weights := weightsFor numFiles }

/-!  The full pipeline  -/

/-- The result bundle of one full analysis run. -/
structure PipelineResult where
  join_keys : List Join
  orphan_records : List OrphanFinding
  entity_duplicates : List DuplicateFinding
  process_gaps : List GapFinding
  score_data : ScoreResult
deriving DecidableEq, Repr

/-- One full analysis run over already-loaded datasets: join inference, the
three checks, then scoring (as `app.py` composes them; the date-parse oracle
and `now` stand for the explicit time reference of the recency checks). -/
def runPipeline (dfs : List (String × Table)) (parseD : Val → Option ℤ) (now : ℤ) :
    PipelineResult :=
  let joins := detect_join_keys dfs
  let orph := check_orphan_records dfs joins
  let dups := check_entity_duplicates dfs joins
  let gaps := check_process_gaps dfs joins
  { join_keys := joins, orphan_records := orph, entity_duplicates := dups,
    process_gaps := gaps,
    score_data := calculate_scores dfs orph dups gaps dfs.length parseD now }

/-!  Concrete inputs used by the claim theorems  -/

/-- Rows holding the stringified values `1 .. n` in one column, as a CSV
column of the integers `1 .. n` stringifies. -/
def natStrRows (n : ℕ) : List (List (Option Val)) :=
  (List.range n).map (fun k => [some (Val.str (toString (k + 1)))])

/-- Scenario A, as stated: `orders` with `customer_id` = 1..100. -/
def ordersT : Table := ⟨["customer_id"], natStrRows 100⟩

/-- Scenario A, as stated: `customers` with `id` = 1..80. -/
def customersIdT : Table := ⟨["id"], natStrRows 80⟩

/-- Scenario A input exactly as the specification states it. -/
def dfsScenarioA : List (String × Table) :=
  [("orders", ordersT), ("customers", customersIdT)]

/-- Scenario A with the customers key column carrying the same name
`customer_id` as in `orders` (the amended setting). -/
def customersSharedT : Table := ⟨["customer_id"], natStrRows 80⟩

/-- The amended Scenario A input. -/
def dfsScenarioA2 : List (String × Table) :=
  [("orders", ordersT), ("customers", customersSharedT)]

/-- Two keyword-free dataset names with different row counts (stage ranking
ties at 999 for both). -/
def dfsStages : List (String × Table) :=
  [("alpha", ⟨["id"], natStrRows 2⟩), ("beta", ⟨["id"], natStrRows 5⟩)]

/-- A minimal two-dataset input for the missing-column skip behavior. -/
def dfsPair : List (String × Table) :=
  [("a", ⟨["id"], natStrRows 2⟩), ("b", ⟨["id"], natStrRows 1⟩)]

/-- A candidate whose column is absent from both datasets of `dfsPair`. -/
def ghostJoin : Join := ⟨"ghost", "a", "b", none, none⟩

/-- The gap finding that `dfsPair` produces when only the valid candidate is
supplied. -/
def pairGapFinding : GapFinding :=
  { stage_from := "a", stage_to := "b", key := "id", missing_count := 1,
    pct_of_upstream := 50, example_ids := ["2"],
    sample_rows := [[some (Val.str "2")]] }

/-- A valid candidate on the shared `id` column of `dfsPair`. -/
def idJoin : Join := ⟨"id", "a", "b", none, none⟩

/-- A source table with `n + 1` rows but only two distinct key values. -/
def srcTiny (n : ℕ) : Table :=
  ⟨["id"], List.replicate n [some (Val.str "1")] ++ [[some (Val.str "2")]]⟩

/-- Source/target pair whose single orphan value amounts to `1 / (n+1)` of
the source rows. -/
def dfsTiny (n : ℕ) : List (String × Table) :=
  [("src", srcTiny n), ("tgt", ⟨["id"], [[some (Val.str "1")]]⟩)]

/-- Input producing an orphan rate of 1/2001 (below half a tenth of a
percent). -/
def dfsTinyPct : List (String × Table) := dfsTiny 2000

/-- The join candidate of `dfsTinyPct`. -/
def tinyJoin : Join := ⟨"id", "src", "tgt", none, none⟩

/-- A source table with 3 rows and duplicate keys: one orphan out of 3 rows
gives the unrounded percentage 100/3. -/
def dfsThird : List (String × Table) :=
  [("src", ⟨["id"], [[some (Val.str "1")], [some (Val.str "1")], [some (Val.str "2")]]⟩),
   ("tgt", ⟨["id"], [[some (Val.str "1")]]⟩)]

/-- The join candidate of `dfsThird`. -/
def thirdJoin : Join := ⟨"id", "src", "tgt", none, none⟩

/-- The single orphan finding that `dfsThird` produces. -/
def thirdFinding : OrphanFinding :=
  { direction := "src → tgt", key := "id", orphan_count := 1,
    pct_of_source := 333/10, example_values := ["2"],
    sample_rows := [[some (Val.str "2")]] }

/-- Scenario C: two near-identical names under different identifiers. -/
def peopleT : Table :=
  ⟨["customer_id", "name"],
   [[some (Val.str "1"), some (Val.str "John Smith")],
    [some (Val.str "2"), some (Val.str "Jon Smith")]]⟩

/-- The Scenario C input. -/
def dfsPeople : List (String × Table) := [("people", peopleT)]

/-- A single entirely-null column. -/
def allNullT : Table := ⟨["x"], [[none]]⟩

/-- A six-row single-valued column. -/
def singleValT : Table := ⟨["x"], List.replicate 6 [some (Val.str "a")]⟩

/-- A TWO-row single-valued column (below the `len(df) > 5` threshold of the
single-value branch). -/
def smallSingleT : Table := ⟨["status"], [[some (Val.str "x")], [some (Val.str "x")]]⟩

/-- A date-parse oracle that parses nothing (date semantics are external). -/
def pdNone : Val → Option ℤ := fun _ => none

/-!  General lemmas about the helper functions  -/

theorem mem_insertLe {le : α → α → Bool} {x a : α} {l : List α} :
    a ∈ insertLe le x l ↔ a = x ∨ a ∈ l := by
  induction l with
  | nil => simp [insertLe]
  | cons y ys ih =>
    unfold insertLe
    split
    · simp [List.mem_cons]
    · simp only [List.mem_cons, ih]
      tauto

theorem mem_insSortBy {le : α → α → Bool} {l : List α} {a : α} :
    a ∈ insSortBy le l ↔ a ∈ l := by
  induction l with
  | nil => simp [insSortBy]
  | cons x xs ih => simp [insSortBy, mem_insertLe, ih]

theorem mem_of_mem_dedupFgo [DecidableEq α] {l seen : List α} {a : α}
    (h : a ∈ dedupFgo l seen) : a ∈ l := by
  induction l generalizing seen with
  | nil => simp [dedupFgo] at h
  | cons x xs ih =>
    unfold dedupFgo at h
    split at h
    · exact List.mem_cons_of_mem _ (ih h)
    · rcases List.mem_cons.mp h with h | h
      · exact h ▸ List.mem_cons_self _ _
      · exact List.mem_cons_of_mem _ (ih h)

theorem length_dedupFgo_le [DecidableEq α] {l seen : List α} :
    (dedupFgo l seen).length ≤ l.length := by
  induction l generalizing seen with
  | nil => simp [dedupFgo]
  | cons x xs ih =>
    unfold dedupFgo
    split
    · exact le_trans ih (Nat.le_succ _)
    · simpa using ih

theorem length_dedupF_le [DecidableEq α] {l : List α} : (dedupF l).length ≤ l.length :=
  length_dedupFgo_le

theorem dedupFgo_append_replicate_mem [DecidableEq α] {a : α} {seen : List α}
    (h : a ∈ seen) (n : ℕ) (l : List α) :
    dedupFgo (List.replicate n a ++ l) seen = dedupFgo l seen := by
  induction n with
  | zero => rfl
  | succ n ih => simpa [List.replicate_succ, dedupFgo, h] using ih

theorem dedupFgo_append_replicate_succ [DecidableEq α] {a : α} {seen : List α}
    (h : a ∉ seen) (n : ℕ) (l : List α) :
    dedupFgo (List.replicate (n + 1) a ++ l) seen = a :: dedupFgo l (a :: seen) := by
  rw [List.replicate_succ, List.cons_append]
  simp only [dedupFgo, if_neg h]
  rw [dedupFgo_append_replicate_mem (List.mem_cons_self a seen)]

theorem filterMap_replicate_some {f : α → Option β} {a : α} {b : β}
    (h : f a = some b) (n : ℕ) :
    List.filterMap f (List.replicate n a) = List.replicate n b := by
  induction n with
  | zero => rfl
  | succ n ih => simp [List.replicate_succ, List.filterMap_cons, h, ih]

theorem filter_replicate_neg {p : α → Bool} {a : α} (h : p a = false) (n : ℕ) :
    List.filter p (List.replicate n a) = [] := by
  induction n with
  | zero => rfl
  | succ n ih => simp [List.replicate_succ, List.filter_cons, h, ih]

theorem round1_nonneg {q : ℚ} (h : 0 ≤ q) : 0 ≤ round1 q := by
  unfold round1
  have h1 : (0 : ℤ) ≤ round (q * 10) := by
    have h2 : (1/2 : ℚ) ≤ q * 10 + 1/2 := by linarith
    have h3 : (0 : ℤ) ≤ ⌊q * 10 + 1/2⌋ := by
      have h4 := Int.floor_le_floor h2
      have h0 : ⌊(1/2 : ℚ)⌋ = 0 := by norm_num
      omega
    rwa [round_eq]
  exact div_nonneg (by exact_mod_cast h1) (by norm_num)

theorem round1_le_100 {q : ℚ} (h : q ≤ 100) : round1 q ≤ 100 := by
  unfold round1
  have h1 : round (q * 10) ≤ 1000 := by
    rw [round_eq]
    calc ⌊q * 10 + 1/2⌋ ≤ ⌊(1000 : ℚ) + 1/2⌋ := Int.floor_le_floor (by linarith)
    _ = 1000 := by norm_num
  rw [div_le_iff₀ (by norm_num : (0:ℚ) < 10)]
  calc ((round (q * 10) : ℤ) : ℚ) ≤ ((1000 : ℤ) : ℚ) := by exact_mod_cast h1
  _ = 100 * 10 := by norm_num

theorem _cap_nonneg (v hi : ℚ) : 0 ≤ _cap v 0 hi := le_max_left 0 _

theorem _cap_le_hi (v hi : ℚ) (h : 0 ≤ hi) : _cap v 0 hi ≤ hi :=
  max_le h (min_le_left hi v)

/-!  Characterization of the emitted findings  -/

theorem colCells_length_le (t : Table) (c : String) :
    (colCells t c).length ≤ numRows t := by
  unfold colCells
  split
  · simp [numRows]
  · simp [numRows]

theorem distinctVals_length_le (t : Table) (c : String) :
    (distinctVals t c).length ≤ numRows t :=
  le_trans length_dedupF_le
    (le_trans (List.length_filterMap_le _ _) (colCells_length_le t c))

theorem mkOrphan_spec {j : Join} {dir : String} {orphans : List String} {src : Table}
    {srcCol : String} {f : OrphanFinding} (h : f ∈ mkOrphan j dir orphans src srcCol) :
    f.direction = dir ∧ f.key = j.key ∧ f.orphan_count = orphans.length ∧
      orphans ≠ [] ∧
      f.pct_of_source = round1 ((orphans.length : ℚ) / (numRows src : ℚ) * 100) := by
  unfold mkOrphan at h
  split at h
  · simp at h
  · next hne =>
    rw [List.mem_singleton] at h
    subst h
    exact ⟨rfl, rfl, rfl, hne, rfl⟩

theorem orphanFrom_spec {dfs : List (String × Table)} {j : Join} {f : OrphanFinding}
    (h : f ∈ orphanFrom dfs j) :
    ∃ src tgt : String, f.direction = src ++ " → " ++ tgt ∧ f.key = j.key ∧
      1 ≤ f.orphan_count ∧ f.orphan_count ≤ numRows (getTable dfs src) ∧
      f.pct_of_source =
        round1 ((f.orphan_count : ℚ) / (numRows (getTable dfs src) : ℚ) * 100) := by
  simp only [orphanFrom] at h
  split at h
  · rw [List.mem_append] at h
    rcases h with h | h
    · obtain ⟨h1, h2, h3, h4, h5⟩ := mkOrphan_spec h
      refine ⟨j.file_a, j.file_b, h1, h2, ?_, ?_, by rw [h5, h3]⟩
      · rw [h3]
        exact List.length_pos.mpr h4
      · rw [h3]
        exact le_trans (List.length_filter_le _ _) (distinctVals_length_le _ _)
    · obtain ⟨h1, h2, h3, h4, h5⟩ := mkOrphan_spec h
      refine ⟨j.file_b, j.file_a, h1, h2, ?_, ?_, by rw [h5, h3]⟩
      · rw [h3]
        exact List.length_pos.mpr h4
      · rw [h3]
        exact le_trans (List.length_filter_le _ _) (distinctVals_length_le _ _)
  · simp at h

theorem mem_check_orphan {dfs : List (String × Table)} {joins : List Join}
    {f : OrphanFinding} :
    f ∈ check_orphan_records dfs joins ↔ ∃ j ∈ joins, f ∈ orphanFrom dfs j := by
  unfold check_orphan_records
  rw [mem_insSortBy, List.mem_flatMap]

theorem sharedJoins_subset {joins : List Join} {fa fb : String} {j : Join}
    (h : j ∈ sharedJoins joins fa fb) : j ∈ joins := by
  simp only [sharedJoins] at h
  split at h
  · exact (List.mem_filter.mp h).1
  · exact (List.mem_filter.mp h).1

theorem gapForPair_spec {dfs : List (String × Table)} {joins : List Join}
    {fa fb : String} {f : GapFinding} (h : gapForPair dfs joins fa fb = some f) :
    ∃ j ∈ joins, f.stage_from = fa ∧ f.stage_to = fb ∧ f.key = j.key ∧
      j.ca ∈ (getTable dfs fa).cols ∧ j.cb ∈ (getTable dfs fb).cols ∧
      1 ≤ f.missing_count ∧
      f.missing_count ≤ (distinctVals (getTable dfs fa) j.ca).length ∧
      f.pct_of_upstream = round1 ((f.missing_count : ℚ) /
        ((distinctVals (getTable dfs fa) j.ca).length : ℚ) * 100) := by
  simp only [gapForPair] at h
  split at h
  · exact absurd h (by simp)
  · next j rest heq =>
    have hj : j ∈ joins := sharedJoins_subset (heq ▸ List.mem_cons_self j rest)
    split at h
    · next hcols =>
      split at h
      · exact absurd h (by simp)
      · next hne =>
        rw [Option.some_inj] at h
        subst h
        refine ⟨j, hj, rfl, rfl, rfl, hcols.1, hcols.2, ?_, ?_, rfl⟩
        · exact List.length_pos.mpr hne
        · exact List.length_filter_le _ _
    · exact absurd h (by simp)

theorem mem_check_gaps {dfs : List (String × Table)} {joins : List Join}
    {f : GapFinding} (h : f ∈ check_process_gaps dfs joins) :
    ∃ fa fb : String, gapForPair dfs joins fa fb = some f := by
  unfold check_process_gaps at h
  split at h
  · simp at h
  · rw [mem_insSortBy, List.mem_filterMap] at h
    obtain ⟨p, _, hp⟩ := h
    exact ⟨p.1, p.2, hp⟩

theorem orphanFrom_invalid {dfs : List (String × Table)} {j : Join}
    (h : validJoin dfs j = false) : orphanFrom dfs j = [] := by
  unfold orphanFrom
  rw [if_neg (by simpa [validJoin] using h)]

theorem flatMap_filter_of_nil {p : α → Bool} {f : α → List β}
    (h : ∀ a, p a = false → f a = []) (l : List α) :
    l.flatMap f = (l.filter p).flatMap f := by
  induction l with
  | nil => rfl
  | cons x xs ih =>
    by_cases hx : p x
    · simp [List.filter_cons, hx, List.flatMap_cons, ih]
    · have hx' : p x = false := by simpa using hx
      simp [List.filter_cons, hx', List.flatMap_cons, h x hx', ih]

/-!  The orphan check on the `dfsTiny` family, proved for every size  -/

theorem check_orphan_tiny (m : ℕ) :
    check_orphan_records (dfsTiny (m + 1)) [tinyJoin] =
      [{ direction := "src → tgt", key := "id", orphan_count := 1,
         pct_of_source := round1 ((1 : ℚ) / ((m + 2 : ℕ) : ℚ) * 100),
         example_values := ["2"], sample_rows := [[some (Val.str "2")]] }] := by
  have hcells : colCells (srcTiny (m + 1)) "id" =
      List.replicate (m + 1) (some (Val.str "1")) ++ [some (Val.str "2")] := by
    show (List.replicate (m + 1) [some (Val.str "1")] ++ [[some (Val.str "2")]]).map
        (fun r => r.getD 0 none) = _
    rw [List.map_append, List.map_replicate]
    rfl
  have hstr : colStrValsNN (srcTiny (m + 1)) "id" = List.replicate (m + 1) "1" ++ ["2"] := by
    unfold colStrValsNN
    rw [hcells, List.filterMap_append,
      filterMap_replicate_some
        (show (fun (o : Option Val) => o.map Val.toStr) (some (Val.str "1")) = some "1"
          from rfl)]
    rfl
  have hdist : distinctVals (srcTiny (m + 1)) "id" = ["1", "2"] := by
    unfold distinctVals dedupF
    rw [hstr, dedupFgo_append_replicate_succ (by simp) m ["2"]]
    rfl
  have hrows : numRows (srcTiny (m + 1)) = m + 2 := by
    simp [numRows, srcTiny]
  have hsample : sampleRows (srcTiny (m + 1)) "id" ["2"] = [[some (Val.str "2")]] := by
    show ((List.replicate (m + 1) [some (Val.str "1")] ++ [[some (Val.str "2")]]).filter
        (fun r => strCell (r.getD 0 none) ∈ ["2"])).take 3 = _
    rw [List.filter_append]
    have hf : List.filter (fun r => decide (strCell (r.getD 0 none) ∈ (["2"] : List String)))
        (List.replicate (m + 1) [some (Val.str "1")]) = [] :=
      filter_replicate_neg rfl (m + 1)
    rw [hf]
    rfl
  have horph : orphanFrom (dfsTiny (m + 1)) tinyJoin =
      [{ direction := "src → tgt", key := "id", orphan_count := 1,
         pct_of_source := round1 ((1 : ℚ) / ((m + 2 : ℕ) : ℚ) * 100),
         example_values := ["2"], sample_rows := [[some (Val.str "2")]] }] := by
    simp only [orphanFrom,
      show tinyJoin.ca = "id" from rfl, show tinyJoin.cb = "id" from rfl,
      show tinyJoin.file_a = "src" from rfl, show tinyJoin.file_b = "tgt" from rfl,
      show getTable (dfsTiny (m + 1)) "src" = srcTiny (m + 1) from rfl,
      show getTable (dfsTiny (m + 1)) "tgt" = (⟨["id"], [[some (Val.str "1")]]⟩ : Table)
        from rfl]
    rw [if_pos ⟨by simp [srcTiny], by simp⟩, hdist,
      show distinctVals (⟨["id"], [[some (Val.str "1")]]⟩ : Table) "id" = ["1"] from rfl,
      show List.filter (fun v => decide (v ∉ ["1"])) ["1", "2"] = ["2"] from rfl,
      show List.filter (fun v => decide (v ∉ ["1", "2"])) ["1"] = [] from rfl]
    simp only [mkOrphan]
    rw [if_neg (show ¬ (["2"] = ([] : List String)) from by simp)]
    simp only [if_true]
    rw [hrows, show List.take 5 (insSortBy strLe ["2"]) = ["2"] from rfl, hsample]
    with_unfolding_all rfl
  unfold check_orphan_records
  simp only [List.flatMap_cons, List.flatMap_nil, List.append_nil]
  rw [horph]
  rfl

/-!  Claim theorems  -/

/-- C10 (counterexample): an orphan finding whose stored percentage is 0.0
even though its orphan count is 1 — one orphan among 2001 source rows has
the unrounded rate 100/2001 < 0.05, which `round(-, 1)` turns into 0.0, so
the emitted `pct_of_source` lies outside the claimed interval (0, 100]. -/
theorem c10_counterexample :
    check_orphan_records dfsTinyPct [tinyJoin] =
      [{ direction := "src → tgt", key := "id", orphan_count := 1,
         pct_of_source := 0, example_values := ["2"],
         sample_rows := [[some (Val.str "2")]] }] := by
  have h := check_orphan_tiny 1999
  have hp : round1 ((1 : ℚ) / ((1999 + 2 : ℕ) : ℚ) * 100) = 0 := by
    unfold round1
    have hr : round ((1 : ℚ) / ((1999 + 2 : ℕ) : ℚ) * 100 * 10) = 0 := by
      rw [round_eq]
      have h1 : (1 : ℚ) / ((1999 + 2 : ℕ) : ℚ) * 100 * 10 = 1000 / 2001 := by
        norm_num
      rw [h1]
      rw [Int.floor_eq_zero_iff]
      constructor
      · norm_num
      · norm_num
    rw [hr]
    norm_num
  rw [show dfsTinyPct = dfsTiny (1999 + 1) from rfl, h, hp]

/-- C10 (amended): every orphan finding and every gap finding has a count of
at least 1 and an unrounded percentage `count / denominator × 100` in
(0, 100] computed against a positive denominator at least as large as the
count (so no division by zero occurs); the STORED percentage is that value
rounded to one decimal, hence in [0, 100] — but it can be 0.0 when the
unrounded value is below 0.05. -/
theorem c10_amended (dfs : List (String × Table)) (joins : List Join) :
    (∀ f ∈ check_orphan_records dfs joins,
      1 ≤ f.orphan_count ∧ 0 ≤ f.pct_of_source ∧ f.pct_of_source ≤ 100 ∧
      ∃ d : ℕ, 1 ≤ d ∧ f.orphan_count ≤ d ∧
        f.pct_of_source = round1 ((f.orphan_count : ℚ) / (d : ℚ) * 100) ∧
        0 < (f.orphan_count : ℚ) / (d : ℚ) * 100 ∧
        (f.orphan_count : ℚ) / (d : ℚ) * 100 ≤ 100) ∧
    (∀ f ∈ check_process_gaps dfs joins,
      1 ≤ f.missing_count ∧ 0 ≤ f.pct_of_upstream ∧ f.pct_of_upstream ≤ 100 ∧
      ∃ d : ℕ, 1 ≤ d ∧ f.missing_count ≤ d ∧
        f.pct_of_upstream = round1 ((f.missing_count : ℚ) / (d : ℚ) * 100) ∧
        0 < (f.missing_count : ℚ) / (d : ℚ) * 100 ∧
        (f.missing_count : ℚ) / (d : ℚ) * 100 ≤ 100) := by
  have key : ∀ (c d : ℕ), 1 ≤ c → c ≤ d →
      0 < (c : ℚ) / (d : ℚ) * 100 ∧ (c : ℚ) / (d : ℚ) * 100 ≤ 100 := by
    intro c d hc hcd
    have hd : (0 : ℚ) < (d : ℚ) := by
      have : 1 ≤ d := le_trans hc hcd
      exact_mod_cast Nat.lt_of_lt_of_le Nat.zero_lt_one this
    constructor
    · have hcq : (0 : ℚ) < (c : ℚ) := by exact_mod_cast hc
      have := div_pos hcq hd
      linarith
    · have hdiv : (c : ℚ) / (d : ℚ) ≤ 1 := by
        rw [div_le_one hd]
        exact_mod_cast hcd
      linarith
  constructor
  · intro f hf
    obtain ⟨j, _, hj⟩ := mem_check_orphan.mp hf
    obtain ⟨src, _, _, _, h3, h4, h5⟩ := orphanFrom_spec hj
    obtain ⟨hpos, hle⟩ := key f.orphan_count (numRows (getTable dfs src)) h3 h4
    exact ⟨h3, h5 ▸ round1_nonneg (le_of_lt hpos), h5 ▸ round1_le_100 hle,
      numRows (getTable dfs src), le_trans h3 h4, h4, h5, hpos, hle⟩
  · intro f hf
    obtain ⟨fa, fb, hp⟩ := mem_check_gaps hf
    obtain ⟨j, _, _, _, _, _, _, h7, h8, h9⟩ := gapForPair_spec hp
    obtain ⟨hpos, hle⟩ := key f.missing_count _ h7 h8
    exact ⟨h7, h9 ▸ round1_nonneg (le_of_lt hpos), h9 ▸ round1_le_100 hle,
      (distinctVals (getTable dfs fa) j.ca).length, le_trans h7 h8, h8, h9, hpos, hle⟩

/-- C10 (witness for the amended theorem): at the concrete `dfsThird` input
the single emitted finding has count 1 ≥ 1 and stored percentage 33.3
within [0, 100]. -/
theorem c10_witness :
    ∃ f, f ∈ check_orphan_records dfsThird [thirdJoin] ∧
      1 ≤ f.orphan_count ∧ 0 ≤ f.pct_of_source ∧ f.pct_of_source ≤ 100 := by
  have hl : check_orphan_records dfsThird [thirdJoin] = [thirdFinding] := by
    with_unfolding_all rfl
  have hm : thirdFinding ∈ check_orphan_records dfsThird [thirdJoin] := by
    rw [hl]
    exact List.mem_singleton_self _
  obtain ⟨h1, h2, h3, _⟩ := (c10_amended dfsThird [thirdJoin]).1 _ hm
  exact ⟨_, hm, h1, h2, h3⟩

/-- C2 (counterexample): the stored `pct_of_source` is the ONE-DECIMAL
ROUNDING of `orphan_count / total_rows × 100`, not that value itself: with 1
orphan among 3 source rows the finding stores 33.3, while the claimed exact
value is 100/3 = 33.333…; the distinct-value convention (1/2 × 100 = 50)
differs from both. -/
theorem c2_counterexample :
    check_orphan_records dfsThird [thirdJoin] = [thirdFinding] ∧
    thirdFinding.orphan_count = 1 ∧ thirdFinding.pct_of_source = 333/10 ∧
    (333 / 10 : ℚ) ≠ (1 : ℚ) / 3 * 100 ∧
    (333 / 10 : ℚ) ≠ (1 : ℚ) / 2 * 100 ∧
    numRows (getTable dfsThird "src") = 3 ∧
    (distinctVals (getTable dfsThird "src") "id").length = 2 := by
  refine ⟨by with_unfolding_all rfl, rfl, rfl, by norm_num, by norm_num, ?_, ?_⟩
  · with_unfolding_all rfl
  · with_unfolding_all rfl

/-- C2 (amended): every orphan finding's stored percentage equals the
one-decimal rounding of `orphan_count / (row count of the source dataset)
× 100` — the full row count, never the distinct-value count — and every gap
finding's stored percentage equals the one-decimal rounding of
`missing_count / (distinct non-null upstream key values) × 100` — the
distinct count, never the total row count. -/
theorem c2_amended (dfs : List (String × Table)) (joins : List Join) :
    (∀ f ∈ check_orphan_records dfs joins, ∃ src tgt : String,
      f.direction = src ++ " → " ++ tgt ∧
      f.pct_of_source =
        round1 ((f.orphan_count : ℚ) / (numRows (getTable dfs src) : ℚ) * 100)) ∧
    (∀ f ∈ check_process_gaps dfs joins, ∃ upCol : String,
      f.pct_of_upstream = round1 ((f.missing_count : ℚ) /
        ((distinctVals (getTable dfs f.stage_from) upCol).length : ℚ) * 100)) := by
  constructor
  · intro f hf
    obtain ⟨j, _, hj⟩ := mem_check_orphan.mp hf
    obtain ⟨src, tgt, h1, _, _, _, h5⟩ := orphanFrom_spec hj
    exact ⟨src, tgt, h1, h5⟩
  · intro f hf
    obtain ⟨fa, fb, hp⟩ := mem_check_gaps hf
    obtain ⟨j, _, h1, _, _, _, _, _, _, h9⟩ := gapForPair_spec hp
    refine ⟨j.ca, ?_⟩
    rw [h1]
    exact h9

/-- C2 (witness for the amended theorem): applied to the `dfsThird` input,
whose finding stores 33.3 = round1(1/3 × 100). -/
theorem c2_witness :
    ∃ f, f ∈ check_orphan_records dfsThird [thirdJoin] ∧ ∃ src tgt : String,
      f.direction = src ++ " → " ++ tgt ∧
      f.pct_of_source =
        round1 ((f.orphan_count : ℚ) / (numRows (getTable dfsThird src) : ℚ) * 100) := by
  have hl : check_orphan_records dfsThird [thirdJoin] = [thirdFinding] := by
    with_unfolding_all rfl
  have hm : thirdFinding ∈ check_orphan_records dfsThird [thirdJoin] := by
    rw [hl]
    exact List.mem_singleton_self _
  exact ⟨_, hm, (c2_amended dfsThird [thirdJoin]).1 _ hm⟩

/-- C1 (counterexample): on Scenario A exactly as the specification states
it — `orders.customer_id` = 1..100 and `customers.id` = 1..80 — join-key
inference finds NO candidate (the column names differ, and their similarity
ratio 4/13 is far below the 0.82 fuzzy threshold), so the orphan check emits
no finding at all, contradicting the claimed finding with orphan_count 20. -/
theorem c1_counterexample :
    detect_join_keys dfsScenarioA = [] ∧
    check_orphan_records dfsScenarioA (detect_join_keys dfsScenarioA) = [] := by
  constructor
  · with_unfolding_all rfl
  · with_unfolding_all rfl

/-- C1 (amended): when the customers key column carries the same name
`customer_id` as in orders — which join-key inference requires in order to
link the pair, since fuzzy matching rejects `customer_id ↔ id` — the
pipeline emits exactly one OrphanFinding with direction "orders →
customers", orphan_count 20 and pct_of_source 20.0. -/
theorem c1_amended :
    check_orphan_records dfsScenarioA2 (detect_join_keys dfsScenarioA2) =
      [{ direction := "orders → customers", key := "customer_id", orphan_count := 20,
         pct_of_source := 20, example_values := ["100", "81", "82", "83", "84"],
         sample_rows := [[some (Val.str "81")], [some (Val.str "82")],
                         [some (Val.str "83")]] }] := by
  with_unfolding_all rfl

/-- C3 (code evaluation at the failing input): two keyword-free dataset
names tie at stage rank 999, yet the pipeline order is the keyword-ranked
(insertion) order ["alpha", "beta"], not the descending-row-count order
["beta", "alpha"], because the source compares the first and last dataset
NAMES (always distinct) instead of their ranks; consequently no gap finding
is emitted, while row-count order would have produced one for beta → alpha
with missing_count 3. -/
theorem c3_code_eval :
    stageRank "alpha" = 999 ∧ stageRank "beta" = 999 ∧
    gapPipelineOrder dfsStages = ["alpha", "beta"] ∧
    orderedByRows dfsStages = ["beta", "alpha"] ∧
    check_process_gaps dfsStages (detect_join_keys dfsStages) = [] ∧
    gapForPair dfsStages (detect_join_keys dfsStages) "beta" "alpha" =
      some { stage_from := "beta", stage_to := "alpha", key := "id", missing_count := 3,
             pct_of_upstream := 60, example_ids := ["3", "4", "5"],
             sample_rows := [[some (Val.str "3")], [some (Val.str "4")],
                             [some (Val.str "5")]] } := by
  refine ⟨?_, ?_, ?_, ?_, ?_, ?_⟩ <;> with_unfolding_all rfl

/-- C9 (counterexample): a candidate whose column is absent from both
datasets is the FIRST match for the only adjacent pair of the gap check, so
the whole pair is skipped and the finding that the later valid candidate
would have produced is lost — the same joins list with the invalid
candidate removed yields the finding. -/
theorem c9_counterexample :
    check_process_gaps dfsPair [ghostJoin, idJoin] = [] ∧
    check_process_gaps dfsPair [idJoin] = [pairGapFinding] ∧
    check_orphan_records dfsPair [ghostJoin, idJoin] =
      [{ direction := "a → b", key := "id", orphan_count := 1, pct_of_source := 50,
         example_values := ["2"], sample_rows := [[some (Val.str "2")]] }] := by
  refine ⟨?_, ?_, ?_⟩ <;> with_unfolding_all rfl

/-- C9 (amended): a candidate with an absent column is skipped silently by
both checks — it contributes no finding and no error. In the orphan check
the output is exactly that of the joins list restricted to valid candidates,
so all other candidates' findings survive; the gap check emits findings only
through candidates whose columns are present, but an invalid candidate that
is the first match for an adjacent pair suppresses that pair's check even
when a later valid candidate exists for the same pair. -/
theorem c9_amended (dfs : List (String × Table)) (joins : List Join) :
    check_orphan_records dfs joins =
      check_orphan_records dfs (joins.filter (validJoin dfs)) ∧
    (∀ f ∈ check_process_gaps dfs joins, ∃ j ∈ joins,
      j.ca ∈ (getTable dfs f.stage_from).cols ∧ j.cb ∈ (getTable dfs f.stage_to).cols ∧
      f.key = j.key) := by
  constructor
  · unfold check_orphan_records
    rw [flatMap_filter_of_nil (fun j hj => orphanFrom_invalid hj) joins]
  · intro f hf
    obtain ⟨fa, fb, hp⟩ := mem_check_gaps hf
    obtain ⟨j, hjm, h1, h2, h3, h4, h5, _⟩ := gapForPair_spec hp
    refine ⟨j, hjm, ?_, ?_, h3⟩
    · rw [h1]
      exact h4
    · rw [h2]
      exact h5

/-- C9 (witness for the amended theorem): at the concrete `dfsPair` input
with the invalid `ghostJoin` present, the orphan output equals the output on
the valid sublist, and the single gap finding of the valid-only run indeed
stems from a candidate with present columns. -/
theorem c9_witness :
    check_orphan_records dfsPair [ghostJoin, idJoin] =
      check_orphan_records dfsPair ([ghostJoin, idJoin].filter (validJoin dfsPair)) ∧
    ∃ f, f ∈ check_process_gaps dfsPair [idJoin] ∧ ∃ j ∈ [idJoin],
      j.ca ∈ (getTable dfsPair f.stage_from).cols ∧
      j.cb ∈ (getTable dfsPair f.stage_to).cols ∧ f.key = j.key := by
  constructor
  · exact (c9_amended dfsPair [ghostJoin, idJoin]).1
  · have hl : check_process_gaps dfsPair [idJoin] = [pairGapFinding] := by
      with_unfolding_all rfl
    have hm : pairGapFinding ∈ check_process_gaps dfsPair [idJoin] := by
      rw [hl]
      exact List.mem_singleton_self _
    exact ⟨_, hm, (c9_amended dfsPair [idJoin]).2 _ hm⟩

/-- C4: the composite score and the completeness dimension always lie in
[0, 92] — both are produced by `_cap(round(·, 1), lo = 0, hi = 92)`, for
every family of datasets, finding sets, file count and date semantics. -/
theorem c4_bounds (dfs : List (String × Table)) (orph : List OrphanFinding)
    (dups : List DuplicateFinding) (gaps : List GapFinding) (n : ℕ)
    (pd : Val → Option ℤ) (now : ℤ) :
    0 ≤ (calculate_scores dfs orph dups gaps n pd now).scores.overall ∧
    (calculate_scores dfs orph dups gaps n pd now).scores.overall ≤ 92 ∧
    0 ≤ (calculate_scores dfs orph dups gaps n pd now).scores.completeness ∧
    (calculate_scores dfs orph dups gaps n pd now).scores.completeness ≤ 92 := by
  refine ⟨?_, ?_, ?_, ?_⟩
  · exact _cap_nonneg _ _
  · exact _cap_le_hi _ _ (by norm_num)
  · exact _cap_nonneg _ _
  · exact _cap_le_hi _ _ (by norm_num)

/-- C6: determinism — the full pipeline (join inference, the three checks
and scoring) is a pure function of the datasets, the date-parse semantics
and the explicit "now" reference, so two runs on identical inputs yield
identical join candidates, identical finding lists and identical scores.
The only order-sensitive intermediate of the source, Python's string-set
iteration order, is consumed exclusively through size, membership and
explicit sorting, which the embedding reflects by using a canonical
first-appearance enumeration of each value set. -/
theorem c6_determinism (d1 d2 : List (String × Table)) (pd1 pd2 : Val → Option ℤ)
    (now1 now2 : ℤ) (hd : d1 = d2) (hp : pd1 = pd2) (hn : now1 = now2) :
    runPipeline d1 pd1 now1 = runPipeline d2 pd2 now2 := by
  subst hd
  subst hp
  subst hn
  rfl

/-- C6 (witness): two runs on the concrete `dfsPair` input coincide. -/
theorem c6_witness : runPipeline dfsPair pdNone 0 = runPipeline dfsPair pdNone 0 :=
  c6_determinism dfsPair dfsPair pdNone pdNone 0 0 rfl rfl rfl

/-- C5: the consistency dimension is null exactly on runs with fewer than 2
files; with at least 2 files it is the constant 95 < 100 when there are no
orphan or gap findings, and otherwise `100 − worst·w1 − mean·w2` with
w1 = 0.65 > w2 = 0.35 over the pooled stored percentages, rounded to one
decimal and clamped into [0, 100]. -/
theorem c5_consistency (dfs : List (String × Table)) (orph : List OrphanFinding)
    (dups : List DuplicateFinding) (gaps : List GapFinding) (n : ℕ)
    (pd : Val → Option ℤ) (now : ℤ) :
    ((calculate_scores dfs orph dups gaps n pd now).scores.consistency = none ↔ n < 2) ∧
    (2 ≤ n → orph = [] → gaps = [] →
      (calculate_scores dfs orph dups gaps n pd now).scores.consistency = some 95 ∧
      (95 : ℚ) < 100) ∧
    (2 ≤ n → allIssuesOf orph gaps ≠ [] →
      (calculate_scores dfs orph dups gaps n pd now).scores.consistency =
        some (_cap (round1 (100 - listMax (allIssuesOf orph gaps) * (65/100) -
          listSum (allIssuesOf orph gaps) / ((allIssuesOf orph gaps).length : ℚ) *
            (35/100))) 0 100) ∧
      (35/100 : ℚ) < 65/100) := by
  have hc : (calculate_scores dfs orph dups gaps n pd now).scores.consistency =
      consistencyScore n orph gaps := rfl
  refine ⟨?_, ?_, ?_⟩
  · rw [hc]
    unfold consistencyScore
    by_cases h : n < 2
    · simp [h]
    · rw [if_neg h]
      constructor
      · intro he
        exfalso
        cases hl : allIssuesOf orph gaps with
        | nil => rw [hl] at he; simp at he
        | cons x xs => rw [hl] at he; simp at he
      · intro h2
        exact absurd h2 h
  · intro h2 ho hg
    rw [hc]
    unfold consistencyScore
    rw [if_neg (by omega)]
    have hl : allIssuesOf orph gaps = [] := by simp [allIssuesOf, ho, hg]
    rw [hl]
    exact ⟨rfl, by norm_num⟩
  · intro h2 hne
    rw [hc]
    unfold consistencyScore
    rw [if_neg (by omega)]
    cases hl : allIssuesOf orph gaps with
    | nil => exact absurd hl hne
    | cons x xs => exact ⟨rfl, by norm_num⟩

/-- C5 (witness): two files and no findings give consistency 95. -/
theorem c5_witness :
    (calculate_scores [] [] [] [] 2 pdNone 0).scores.consistency = some 95 :=
  ((c5_consistency [] [] [] [] 2 pdNone 0).2.1 (by norm_num) rfl rfl).1

/-!  The fuzzy-duplicate window, characterized  -/

theorem fuzzyWindowPairs_mem_iff {names : List String} {p : FuzzyPair} :
    p ∈ fuzzyWindowPairs names ↔
    ∃ i j : ℕ, i < j ∧ j < min (i + 30) names.length ∧
      names.getD i "" = p.value_a ∧ names.getD j "" = p.value_b ∧
      ((p.value_a.data.length : ℤ) - (p.value_b.data.length : ℤ)).natAbs ≤ 8 ∧
      (85/100 : ℚ) < simRatio (lowerStr p.value_a) (lowerStr p.value_b) ∧
      simRatio (lowerStr p.value_a) (lowerStr p.value_b) < 1 ∧
      p.similarity = round2 (simRatio (lowerStr p.value_a) (lowerStr p.value_b)) := by
  unfold fuzzyWindowPairs
  rw [List.mem_flatMap]
  constructor
  · rintro ⟨i, hi, hmem⟩
    rw [List.mem_filterMap] at hmem
    obtain ⟨j, hj, hf⟩ := hmem
    rw [List.mem_range'_1] at hj
    rw [List.mem_range] at hi
    simp only [] at hf
    split at hf
    · exact absurd hf (by simp)
    · next hlen =>
      split at hf
      · next hcond =>
        rw [Option.some_inj] at hf
        subst hf
        refine ⟨i, j, by omega, by omega, rfl, rfl, ?_, hcond.1, hcond.2, rfl⟩
        show (((names.getD i "").data.length : ℤ) -
          ((names.getD j "").data.length : ℤ)).natAbs ≤ 8
        omega
      · exact absurd hf (by simp)
  · rintro ⟨i, j, hij, hjmin, ha, hb, hlen, h85, h1, hr⟩
    refine ⟨i, ?_, ?_⟩
    · rw [List.mem_range]
      omega
    · rw [List.mem_filterMap]
      refine ⟨j, ?_, ?_⟩
      · rw [List.mem_range'_1]
        omega
      · simp only []
        rw [ha, hb]
        rw [if_neg (by omega), if_pos ⟨h85, h1⟩, ← hr]

/-- C7: a pair of (distinct, since `names` lists distinct values) name
values is flagged by the fuzzy-duplicate scan if and only if it occurs at
window positions i < j < min(i+30, n) of the sorted name list, its length
difference is at most 8 characters, and its lowercased similarity ratio
lies strictly between 0.85 and 1.0 (so a ratio of exactly 1.0 is never
flagged); concretely, Scenario C ("John Smith" / "Jon Smith" under
different identifiers) is reported with stored similarity 0.95 ∈ (0.85, 1),
the two-decimal rounding of the exact ratio 18/19. -/
theorem c7_fuzzy :
    (∀ (names : List String) (a b : String) (r : ℚ),
      (⟨a, b, r⟩ : FuzzyPair) ∈ fuzzyWindowPairs names ↔
      ∃ i j : ℕ, i < j ∧ j < min (i + 30) names.length ∧
        names.getD i "" = a ∧ names.getD j "" = b ∧
        ((a.data.length : ℤ) - (b.data.length : ℤ)).natAbs ≤ 8 ∧
        (85/100 : ℚ) < simRatio (lowerStr a) (lowerStr b) ∧
        simRatio (lowerStr a) (lowerStr b) < 1 ∧
        r = round2 (simRatio (lowerStr a) (lowerStr b))) ∧
    (∀ (names : List String) (p : FuzzyPair), p ∈ fuzzyWindowPairs names →
      simRatio (lowerStr p.value_a) (lowerStr p.value_b) ≠ 1) ∧
    check_entity_duplicates dfsPeople [] =
      [{ file := "people", dtype := "Fuzzy name duplicates (likely same entity)",
         duplicate_count := 1,
         examples := .fuzzy [{ value_a := "John Smith", value_b := "Jon Smith",
                               similarity := 19/20 }] }] ∧
    simRatio (lowerStr "John Smith") (lowerStr "Jon Smith") = 18/19 ∧
    (85/100 : ℚ) < 19/20 ∧ (19/20 : ℚ) < 1 := by
  refine ⟨?_, ?_, ?_, ?_, by norm_num, by norm_num⟩
  · intro names a b r
    exact fuzzyWindowPairs_mem_iff
  · intro names p hp
    obtain ⟨_, _, _, _, _, _, _, _, h1, _⟩ := fuzzyWindowPairs_mem_iff.mp hp
    exact ne_of_lt h1
  · with_unfolding_all rfl
  · with_unfolding_all rfl

/-- C7 (witness): the characterization applied at the Scenario C name list
puts the "John Smith" / "Jon Smith" pair in the fuzzy window. -/
theorem c7_witness :
    (⟨"John Smith", "Jon Smith", 19/20⟩ : FuzzyPair) ∈
      fuzzyWindowPairs ["John Smith", "Jon Smith"] := by
  apply (c7_fuzzy.1 ["John Smith", "Jon Smith"] "John Smith" "Jon Smith" (19/20)).mpr
  refine ⟨0, 1, by norm_num, by norm_num, rfl, rfl, by norm_num, ?_, ?_, ?_⟩
  · rw [show simRatio (lowerStr "John Smith") (lowerStr "Jon Smith") = 18/19 from
      by with_unfolding_all rfl]
    norm_num
  · rw [show simRatio (lowerStr "John Smith") (lowerStr "Jon Smith") = 18/19 from
      by with_unfolding_all rfl]
    norm_num
  · with_unfolding_all rfl

/-- C8 (counterexample): a two-row column whose non-null values are all
identical does NOT receive the fixed low validity score 50 — the
single-distinct-value branch additionally requires more than 5 rows, so
this textual column scores the default 90. -/
theorem c8_counterexample :
    columnScore smallSingleT "status" pdNone 0 = 90 ∧
    (dedupF ((colCells smallSingleT "status").filterMap id)).length = 1 ∧
    numRows smallSingleT = 2 ∧ (90 : ℚ) ≠ 50 := by
  refine ⟨?_, ?_, ?_, by norm_num⟩ <;> with_unfolding_all rfl

/-- C8 (amended): an entirely-null column contributes the per-column
validity score 0; a column with exactly one distinct non-null value
contributes the fixed low score 50 — distinct from the all-null
contribution — PROVIDED the dataset has more than 5 rows (with at most 5
rows that branch is skipped). -/
theorem c8_amended (t : Table) (c : String) (pd : Val → Option ℤ) (now : ℤ) :
    ((colCells t c).filterMap id = [] → columnScore t c pd now = 0) ∧
    ((colCells t c).filterMap id ≠ [] →
      (dedupF ((colCells t c).filterMap id)).length = 1 → 5 < numRows t →
      columnScore t c pd now = 50) ∧
    (50 : ℚ) ≠ 0 := by
  refine ⟨?_, ?_, by norm_num⟩
  · intro h
    simp only [columnScore]
    rw [if_pos (by rw [h]; rfl)]
  · intro h1 h2 h3
    simp only [columnScore]
    rw [if_neg (by simpa [List.length_eq_zero] using h1), if_pos ⟨h2, h3⟩]

/-- C8 (witness for the amended theorem): an all-null column scores 0 and a
six-row single-valued column scores 50. -/
theorem c8_witness :
    columnScore allNullT "x" pdNone 0 = 0 ∧ columnScore singleValT "x" pdNone 0 = 50 := by
  constructor
  · exact (c8_amended allNullT "x" pdNone 0).1 (by with_unfolding_all rfl)
  · exact (c8_amended singleValT "x" pdNone 0).2.1 (by with_unfolding_all decide)
      (by with_unfolding_all rfl) (by with_unfolding_all decide)

end DataQuality
